import Mathlib

/-!
# LED driver (`src/src/leds.c`, `src/inc/leds.h`)

A shallow embedding of the 16-LED register driver.

* `uint8_t` and `uint16_t` values are natural numbers; a conversion to
  `uint16_t` is the explicit reduction `toUint16` modulo `2 ^ 16`.
* Arithmetic happens at C `int` after the integer promotions, so the operands
  of `<<`, `|`, `&`, `~` and of the comparisons are integers (`Int`).
* An operation whose result depends on the target (a shift of a nonzero value
  by a negative amount or by at least the width of `int`, a shift whose result
  `int` cannot hold, an access through a null `port_adress`) returns `none`.
  A shift of zero is zero for every amount.
* The module state is the static pointer `port_adress` together with the
  memory it points into; every operation passes the state explicitly.
-/

namespace Leds

/-! ## Constants of `leds.h` -/

/-- Macro `#define ALL_LEDS_ON 0xFFFF` -/
def ALL_LEDS_ON : Int := 0xFFFF

/-- Macro `#define ALL_LEDS_OFF 0x0000` -/
def ALL_LEDS_OFF : Int := 0x0000

/-- Macro `#define MIN_LEDS_POSITION 1` -/
def MIN_LEDS_POSITION : Int := 1

/-- Macro `#define MAX_LEDS_POSITION 16` -/
def MAX_LEDS_POSITION : Int := 16

/-- Macro `#define LED_BIT_ON 1` -/
def LED_BIT_ON : Int := 1

/-- Macro `#define LED_BIT_OFF 0` -/
def LED_BIT_OFF : Int := 0

/-! ## C integer semantics used by the driver -/

/-- Width of C `int` in bits (the usual 32-bit `int` of the host on which the
unit tests run). -/
def INT_WIDTH : Nat := 32

/-- Conversion of an `int` value to `uint16_t`: reduction modulo `2 ^ 16`. -/
def toUint16 (x : Int) : Nat := (x % 65536).toNat

/-- The C expression `a << s` on `int` operands, as the compiled code evaluates
it. When the shift amount satisfies `0 ≤ s < INT_WIDTH`, `a` is not negative and
`a * 2 ^ s` is representable in `int`, the value is `a * 2 ^ s`. Outside that
range a zero operand still gives zero: a shift only moves the bits of its left
operand, all of them zero, whatever the target does with the amount. For a
nonzero operand outside that range the result depends on the target and has no
value here. -/
def shiftLeftInt (a s : Int) : Option Int :=
  if 0 ≤ s ∧ s < (INT_WIDTH : Int) ∧ 0 ≤ a ∧ a * 2 ^ s.toNat < 2 ^ (INT_WIDTH - 1) then
    some (a * 2 ^ s.toNat)
  else if a = 0 then
    some 0
  else
    none

/-- The bit pattern that represents an `int` value (negative values wrap around
modulo `2 ^ INT_WIDTH`), as a natural number below `2 ^ INT_WIDTH`. -/
def intBits (x : Int) : Nat := (x % 2 ^ INT_WIDTH).toNat

/-- The `int` value a given bit pattern represents: patterns with the top bit set
stand for negative values. -/
def ofIntBits (n : Nat) : Int :=
  if n < 2 ^ (INT_WIDTH - 1) then (n : Int) else (n : Int) - 2 ^ INT_WIDTH

/-- The C expression `a | b` on `int` operands. -/
def orInt (a b : Int) : Int := ofIntBits (intBits a ||| intBits b)

/-- The C expression `a & b` on `int` operands. -/
def andInt (a b : Int) : Int := ofIntBits (intBits a &&& intBits b)

/-- The C expression `~a` on an `int` operand: every bit of the pattern is
flipped. -/
def notInt (a : Int) : Int := ofIntBits (intBits a ^^^ (2 ^ INT_WIDTH - 1))

/-! ## Module state -/

/-- The state the driver works on: the static `port_adress` (`none` is the null
pointer the variable holds before `LedsInit`) and the memory of `uint16_t`
cells, indexed by address. -/
structure LedsState where
  port_adress : Option Nat
  memory : Nat → Nat

/-- The read `*port_adress`; undefined through a null pointer. -/
def readPort (s : LedsState) : Option Nat :=
  match s.port_adress with
  | none => none
  | some a => some (s.memory a)

/-- The store `*port_adress = v`; undefined through a null pointer. -/
def writePort (s : LedsState) (v : Nat) : Option LedsState :=
  match s.port_adress with
  | none => none
  | some a => some { s with memory := Function.update s.memory a v }

/-! ## Functions of `leds.c` -/

/-- Source `bool IsLedPositionValid(uint8_t led)`:
`return (led >= MIN_LEDS_POSITION && led <= MAX_LEDS_POSITION);` -/
def IsLedPositionValid (led : Nat) : Bool :=
  decide ((led : Int) ≥ MIN_LEDS_POSITION) && decide ((led : Int) ≤ MAX_LEDS_POSITION)

/-- Source `uint16_t LedMaskOn(uint8_t led)`: `return LED_BIT_ON << (led - 1);` -/
def LedMaskOn (led : Nat) : Option Nat :=
  (shiftLeftInt LED_BIT_ON ((led : Int) - 1)).map toUint16

/-- Source `uint16_t LedMaskOff(uint8_t led)`: `return LED_BIT_OFF << (led - 1);` -/
def LedMaskOff (led : Nat) : Option Nat :=
  (shiftLeftInt LED_BIT_OFF ((led : Int) - 1)).map toUint16

/-- Source `void LedsInit(uint16_t *direccion)`:
`port_adress = direccion; *direccion = ALL_LEDS_OFF;` -/
def LedsInit (direccion : Option Nat) (s : LedsState) : Option LedsState :=
  match direccion with
  | none => none
  | some a =>
    some { port_adress := some a,
           memory := Function.update s.memory a (toUint16 ALL_LEDS_OFF) }

/-- Source `void LedsTurnOnSingle(uint8_t led)`:
`if (!IsLedPositionValid(led)) return; *port_adress |= LedMaskOn(led);` -/
def LedsTurnOnSingle (led : Nat) (s : LedsState) : Option LedsState :=
  if !IsLedPositionValid led then
    some s
  else do
    let mask ← LedMaskOn led
    let reg ← readPort s
    writePort s (toUint16 (orInt (reg : Int) (mask : Int)))

/-- Source `void LedsTurnOffSingle(uint8_t led)`:
`if (!IsLedPositionValid(led)) return; *port_adress &= ~(LedMaskOn(led));` -/
def LedsTurnOffSingle (led : Nat) (s : LedsState) : Option LedsState :=
  if !IsLedPositionValid led then
    some s
  else do
    let mask ← LedMaskOn led
    let reg ← readPort s
    writePort s (toUint16 (andInt (reg : Int) (notInt (mask : Int))))

/-- Source `void LedsTurnOnMultiple(uint16_t leds)`: `*port_adress |= leds;` -/
def LedsTurnOnMultiple (leds : Nat) (s : LedsState) : Option LedsState := do
  let reg ← readPort s
  writePort s (toUint16 (orInt (reg : Int) (leds : Int)))

/-- Source `void LedsTurnOnAll(void)`: `*port_adress = ALL_LEDS_ON;` -/
def LedsTurnOnAll (s : LedsState) : Option LedsState :=
  writePort s (toUint16 ALL_LEDS_ON)

/-- Source `void LedsTurnOffAll(void)`: `*port_adress = ALL_LEDS_OFF;` -/
def LedsTurnOffAll (s : LedsState) : Option LedsState :=
  writePort s (toUint16 ALL_LEDS_OFF)

/-- Source `bool LedCheckStatus(uint8_t led)`:
`if (!IsLedPositionValid(led)) return false;`
`return (*port_adress & LedMaskOn(led)) != LED_BIT_OFF;`
The result is paired with the state the call leaves behind. -/
def LedCheckStatus (led : Nat) (s : LedsState) : Option (Bool × LedsState) :=
  if !IsLedPositionValid led then
    some (false, s)
  else do
    let mask ← LedMaskOn led
    let reg ← readPort s
    some (decide (andInt (reg : Int) (mask : Int) ≠ LED_BIT_OFF), s)

/-- A state as the unit tests set it up: the register lives at address `0`,
holds `r`, and the driver is already bound to it. -/
def boundState (r : Nat) : LedsState :=
  { port_adress := some 0, memory := fun _ => r }

/-- A state before any `LedsInit`: `port_adress` is null, every cell holds `r`. -/
def unboundState (r : Nat) : LedsState :=
  { port_adress := none, memory := fun _ => r }

/-! ## Declared in `leds.h`, absent from `leds.c` -/

/-- Modelled from the spec: `bool IsLedRangeValid(uint16_t leds)` is declared in
`leds.h` but `leds.c` gives it no body. The spec has it validate that a
multi-LED mask is within the representable range, the range of masks running
from `ALL_LEDS_OFF` to `ALL_LEDS_ON`. -/
def IsLedRangeValid (leds : Nat) : Bool :=
  decide ((leds : Int) ≥ ALL_LEDS_OFF) && decide ((leds : Int) ≤ ALL_LEDS_ON)

/-! ## Executions with a log of the calls to `LedMaskOn` -/

/-- The shift amount `led - 1` that the body of `LedMaskOn(led)` hands to `<<`,
an `int` after the promotion of `led`. -/
def maskShiftAmount (led : Nat) : Int := (led : Int) - 1

/-- The body of `LedsTurnOnSingle`, returning next to its result the arguments
with which the execution called `LedMaskOn`, in call order. -/
def LedsTurnOnSingleLogged (led : Nat) (s : LedsState) : Option LedsState × List Nat :=
  if !IsLedPositionValid led then
    (some s, [])
  else
    ((do
        let mask ← LedMaskOn led
        let reg ← readPort s
        writePort s (toUint16 (orInt (reg : Int) (mask : Int)))), [led])

/-- The body of `LedsTurnOffSingle`, returning next to its result the arguments
with which the execution called `LedMaskOn`, in call order. -/
def LedsTurnOffSingleLogged (led : Nat) (s : LedsState) : Option LedsState × List Nat :=
  if !IsLedPositionValid led then
    (some s, [])
  else
    ((do
        let mask ← LedMaskOn led
        let reg ← readPort s
        writePort s (toUint16 (andInt (reg : Int) (notInt (mask : Int))))), [led])

/-- The body of `LedCheckStatus`, returning next to its result the arguments
with which the execution called `LedMaskOn`, in call order. -/
def LedCheckStatusLogged (led : Nat) (s : LedsState) :
    Option (Bool × LedsState) × List Nat :=
  if !IsLedPositionValid led then
    (some (false, s), [])
  else
    ((do
        let mask ← LedMaskOn led
        let reg ← readPort s
        some (decide (andInt (reg : Int) (mask : Int) ≠ LED_BIT_OFF), s)), [led])

/-! ## Sequences of calls and the register rebuilt from the status queries -/

/-- The calls `LedsTurnOnSingle(led)` for the elements `led` of `leds`, one after
the other, from left to right. -/
def turnOnEach (leds : List Nat) (s : LedsState) : Option LedsState :=
  leds.foldlM (fun st led => LedsTurnOnSingle led st) s

/-- The calls `LedsTurnOffSingle(led)` for the elements `led` of `leds`, one after
the other, from left to right. -/
def turnOffEach (leds : List Nat) (s : LedsState) : Option LedsState :=
  leds.foldlM (fun st led => LedsTurnOffSingle led st) s

/-- The answer of `LedCheckStatus(led)` alone, without the state. -/
def statusOf (led : Nat) (s : LedsState) : Option Bool :=
  (LedCheckStatus led s).map Prod.fst

/-- The mask `LedMaskOn(led)` when `LedCheckStatus(led)` answers true, the empty
mask otherwise. -/
def litMask (s : LedsState) (led : Nat) : Nat :=
  match statusOf led s, LedMaskOn led with
  | some true, some m => m
  | _, _ => 0

/-- The bitwise OR of `LedMaskOn(led)` over the `led` in [1,16] whose status is
true. -/
def orOfLitMasks (s : LedsState) : Nat :=
  ((List.range' 1 16).map (litMask s)).foldl (fun acc m => acc ||| m) 0

/-! ## Validator -/

/-- C1: for every `led` (in particular every 8-bit one) `IsLedPositionValid led`
is true exactly when `1 ≤ led ≤ 16`; it is true at 1 and 16, false at 0 and 17. -/
theorem isLedPositionValid_iff :
    (∀ led : Nat, IsLedPositionValid led = true ↔ (1 ≤ led ∧ led ≤ 16)) ∧
    IsLedPositionValid 1 = true ∧ IsLedPositionValid 16 = true ∧
    IsLedPositionValid 0 = false ∧ IsLedPositionValid 17 = false := by
  refine ⟨fun led => ?_, by decide, by decide, by decide, by decide⟩
  simp only [IsLedPositionValid, MIN_LEDS_POSITION, MAX_LEDS_POSITION, Bool.and_eq_true,
    decide_eq_true_eq]
  omega

/-! ## Integer conversions on 16-bit operands -/

theorem toUint16_natCast (n : Nat) (h : n < 65536) : toUint16 (n : Int) = n := by
  unfold toUint16
  omega

theorem intBits_natCast (n : Nat) (h : n < 4294967296) : intBits (n : Int) = n := by
  unfold intBits INT_WIDTH
  norm_num
  omega

theorem ofIntBits_small (n : Nat) (h : n < 2147483648) : ofIntBits n = (n : Int) := by
  unfold ofIntBits INT_WIDTH
  norm_num
  omega

theorem intBits_ofIntBits (n : Nat) (h : n < 4294967296) : intBits (ofIntBits n) = n := by
  unfold intBits ofIntBits INT_WIDTH
  norm_num
  split <;> omega

theorem orInt_natCast (r m : Nat) (hr : r < 65536) (hm : m < 65536) :
    orInt (r : Int) (m : Int) = ((r ||| m : Nat) : Int) := by
  have h : r ||| m < 2 ^ 16 := Nat.or_lt_two_pow (by simpa using hr) (by simpa using hm)
  unfold orInt
  rw [intBits_natCast r (by omega), intBits_natCast m (by omega), ofIntBits_small _ (by omega)]

theorem andInt_natCast (r m : Nat) (hr : r < 65536) (hm : m < 65536) :
    andInt (r : Int) (m : Int) = ((r &&& m : Nat) : Int) := by
  have h : r &&& m ≤ r := Nat.and_le_left
  unfold andInt
  rw [intBits_natCast r (by omega), intBits_natCast m (by omega), ofIntBits_small _ (by omega)]

theorem andInt_notInt_natCast (r m : Nat) (hr : r < 65536) (hm : m < 65536) :
    andInt (r : Int) (notInt (m : Int)) = ((r &&& (65535 ^^^ m) : Nat) : Int) := by
  have hx : m ^^^ (2 ^ 32 - 1) < 2 ^ 32 :=
    Nat.xor_lt_two_pow (by omega) (by norm_num)
  have h : r &&& (m ^^^ (2 ^ 32 - 1)) ≤ r := Nat.and_le_left
  have e : r &&& (m ^^^ (2 ^ 32 - 1)) = r &&& (65535 ^^^ m) := by
    apply Nat.eq_of_testBit_eq
    intro i
    have h65 : (65535 : Nat) = 2 ^ 16 - 1 := by norm_num
    rw [Nat.testBit_and, Nat.testBit_and, Nat.testBit_xor, Nat.testBit_xor, h65,
      Nat.testBit_two_pow_sub_one, Nat.testBit_two_pow_sub_one]
    by_cases hi : i < 16
    · have : i < 32 := by omega
      simp [hi, this, Bool.xor_comm]
    · have hr16 : r < 2 ^ 16 := by omega
      have hr0 : r.testBit i = false :=
        Nat.testBit_lt_two_pow
          (lt_of_lt_of_le hr16 (Nat.pow_le_pow_right (by norm_num) (by omega)))
      simp [hr0]
  unfold andInt notInt
  simp only [INT_WIDTH] at *
  rw [intBits_natCast m (by omega), intBits_ofIntBits _ (by omega), intBits_natCast r (by omega),
    ofIntBits_small _ (by omega), e]
/-! ## The driver on a bound register -/

theorem isLedPositionValid_of_range (led : Nat) (h1 : 1 ≤ led) (h16 : led ≤ 16) :
    IsLedPositionValid led = true := by
  simp only [IsLedPositionValid, MIN_LEDS_POSITION, MAX_LEDS_POSITION, Bool.and_eq_true,
    decide_eq_true_eq]
  omega

theorem isLedPositionValid_of_not_range (led : Nat) (h : led = 0 ∨ 17 ≤ led) :
    IsLedPositionValid led = false := by
  rw [← Bool.not_eq_true]
  simp only [IsLedPositionValid, MIN_LEDS_POSITION, MAX_LEDS_POSITION, Bool.and_eq_true,
    decide_eq_true_eq]
  omega

theorem two_pow_pred_lt (led : Nat) (h16 : led ≤ 16) : 2 ^ (led - 1) < 65536 :=
  lt_of_le_of_lt (Nat.pow_le_pow_right (by norm_num) (by omega : led - 1 ≤ 15)) (by norm_num)

theorem ledMaskOn_of_range (led : Nat) (h1 : 1 ≤ led) (h16 : led ≤ 16) :
    LedMaskOn led = some (2 ^ (led - 1)) := by
  interval_cases led <;> decide

theorem ledsTurnOnSingle_of_range (s : LedsState) (a led : Nat)
    (hp : s.port_adress = some a) (hr : s.memory a < 65536) (h1 : 1 ≤ led) (h16 : led ≤ 16) :
    LedsTurnOnSingle led s =
      some { s with memory := Function.update s.memory a (s.memory a ||| 2 ^ (led - 1)) } := by
  have hm := two_pow_pred_lt led h16
  unfold LedsTurnOnSingle
  rw [isLedPositionValid_of_range led h1 h16, ledMaskOn_of_range led h1 h16]
  simp only [readPort, writePort, hp, Bool.not_true, Bool.false_eq_true, if_false,
    Option.bind_eq_bind, Option.some_bind]
  rw [orInt_natCast _ _ hr hm, toUint16_natCast _ (Nat.or_lt_two_pow (n := 16) hr hm)]

theorem ledsTurnOffSingle_of_range (s : LedsState) (a led : Nat)
    (hp : s.port_adress = some a) (hr : s.memory a < 65536) (h1 : 1 ≤ led) (h16 : led ≤ 16) :
    LedsTurnOffSingle led s =
      some { s with
        memory := Function.update s.memory a (s.memory a &&& (65535 ^^^ 2 ^ (led - 1))) } := by
  have hm := two_pow_pred_lt led h16
  have hle : s.memory a &&& (65535 ^^^ 2 ^ (led - 1)) ≤ s.memory a := Nat.and_le_left
  unfold LedsTurnOffSingle
  rw [isLedPositionValid_of_range led h1 h16, ledMaskOn_of_range led h1 h16]
  simp only [readPort, writePort, hp, Bool.not_true, Bool.false_eq_true, if_false,
    Option.bind_eq_bind, Option.some_bind]
  rw [andInt_notInt_natCast _ _ hr hm, toUint16_natCast _ (by omega)]

theorem ledCheckStatus_of_range (s : LedsState) (a led : Nat)
    (hp : s.port_adress = some a) (hr : s.memory a < 65536) (h1 : 1 ≤ led) (h16 : led ≤ 16) :
    LedCheckStatus led s = some ((s.memory a).testBit (led - 1), s) := by
  have hm := two_pow_pred_lt led h16
  unfold LedCheckStatus
  rw [isLedPositionValid_of_range led h1 h16, ledMaskOn_of_range led h1 h16]
  simp only [readPort, hp, Bool.not_true, Bool.false_eq_true, if_false,
    Option.bind_eq_bind, Option.some_bind]
  rw [andInt_natCast _ _ hr hm, Nat.and_two_pow]
  cases hb : (s.memory a).testBit (led - 1) <;> simp [LED_BIT_OFF]

theorem ledMaskOff_of_range (led : Nat) (h1 : 1 ≤ led) (h16 : led ≤ 16) :
    LedMaskOff led = some 0 := by
  interval_cases led <;> decide

theorem ledsInit_some (s : LedsState) (a : Nat) :
    LedsInit (some a) s = some { port_adress := some a, memory := Function.update s.memory a 0 } :=
  rfl

/-! ## Initialisation -/

/-- C2: whatever the memory held before (0xFFFF included), `LedsInit` on the
register at address `a` succeeds, binds `port_adress` to `a` and leaves the
register holding 0x0000; no other cell changes. -/
theorem ledsInit_clears_register (s : LedsState) (a : Nat) :
    ∃ t, LedsInit (some a) s = some t ∧ t.port_adress = some a ∧ t.memory a = 0x0000 ∧
      ∀ b, b ≠ a → t.memory b = s.memory b := by
  refine ⟨_, ledsInit_some s a, rfl, ?_, ?_⟩
  · simp
  · intro b hb
    simp [Function.update_noteq hb]

/-! ## Mask generator -/

/-- C3: for `led` in [1,16], `LedMaskOn led` is defined and equals `1 << (led-1)`:
the `int` shift result is the same number as the returned `uint16_t`, which is
below `2 ^ 16`, nonzero, and has bit `led-1` set and no other. -/
theorem ledMaskOn_eq_one_shiftLeft (led : Nat) (h1 : 1 ≤ led) (h16 : led ≤ 16) :
    ∃ m, LedMaskOn led = some m ∧ m = 1 <<< (led - 1) ∧
      shiftLeftInt LED_BIT_ON ((led : Int) - 1) = some (m : Int) ∧
      m < 65536 ∧ m ≠ 0 ∧ ∀ i, m.testBit i = decide (i = led - 1) := by
  refine ⟨2 ^ (led - 1), ledMaskOn_of_range led h1 h16, (Nat.one_shiftLeft _).symm, ?_,
    two_pow_pred_lt led h16, by positivity, ?_⟩
  · interval_cases led <;> decide
  · intro i
    rw [Nat.testBit_two_pow]
    exact decide_eq_decide.mpr eq_comm

theorem ledMaskOn_eq_one_shiftLeft_witness :
    1 ≤ 16 ∧ 16 ≤ 16 ∧ ∃ m, LedMaskOn 16 = some m ∧ m = 1 <<< (16 - 1) ∧
      shiftLeftInt LED_BIT_ON (((16 : Nat) : Int) - 1) = some (m : Int) ∧
      m < 65536 ∧ m ≠ 0 ∧ ∀ i, m.testBit i = decide (i = 16 - 1) :=
  ⟨by decide, by decide, ledMaskOn_eq_one_shiftLeft 16 (by decide) (by decide)⟩

/-! ## Single LEDs after initialisation -/

/-- C4: for `led` in [1,16], `LedsInit` followed by `LedsTurnOnSingle led` succeeds,
leaves the register equal to `LedMaskOn led`, and `LedCheckStatus led` then
returns true without changing the state. -/
theorem init_turnOnSingle (s : LedsState) (a led : Nat) (h1 : 1 ≤ led) (h16 : led ≤ 16) :
    ∃ t, (LedsInit (some a) s >>= LedsTurnOnSingle led) = some t ∧
      t.port_adress = some a ∧ some (t.memory a) = LedMaskOn led ∧
      LedCheckStatus led t = some (true, t) := by
  have hon := ledsTurnOnSingle_of_range
    { port_adress := some a, memory := Function.update s.memory a 0 } a led rfl (by simp) h1 h16
  simp only [Function.update_same, Nat.zero_or, Function.update_idem] at hon
  refine ⟨{ port_adress := some a, memory := Function.update s.memory a (2 ^ (led - 1)) },
    ?_, ?_, ?_, ?_⟩
  · rw [ledsInit_some, Option.bind_eq_bind, Option.some_bind, hon]
  · rfl
  · simp [ledMaskOn_of_range led h1 h16]
  · rw [ledCheckStatus_of_range _ a led rfl (by simpa using two_pow_pred_lt led h16) h1 h16]
    simp

theorem init_turnOnSingle_witness :
    1 ≤ 5 ∧ 5 ≤ 16 ∧
    ∃ t, (LedsInit (some 0) (unboundState 0xFFFF) >>= LedsTurnOnSingle 5) = some t ∧
      t.port_adress = some 0 ∧ some (t.memory 0) = LedMaskOn 5 ∧
      LedCheckStatus 5 t = some (true, t) :=
  ⟨by decide, by decide, init_turnOnSingle (unboundState 0xFFFF) 0 5 (by decide) (by decide)⟩

/-- C5: for `led` in [1,16], `LedsInit`, `LedsTurnOnSingle led` and then
`LedsTurnOffSingle led` succeed and leave the register equal to 0x0000, which is
also the value of `LedMaskOff led`; `LedCheckStatus led` then returns false
without changing the state. -/
theorem init_turnOnSingle_turnOffSingle (s : LedsState) (a led : Nat)
    (h1 : 1 ≤ led) (h16 : led ≤ 16) :
    ∃ t, (LedsInit (some a) s >>= LedsTurnOnSingle led >>= LedsTurnOffSingle led) = some t ∧
      t.port_adress = some a ∧ t.memory a = 0x0000 ∧ some (t.memory a) = LedMaskOff led ∧
      LedCheckStatus led t = some (false, t) := by
  have hm := two_pow_pred_lt led h16
  have hon := ledsTurnOnSingle_of_range
    { port_adress := some a, memory := Function.update s.memory a 0 } a led rfl (by simp) h1 h16
  simp only [Function.update_same, Nat.zero_or, Function.update_idem] at hon
  have hoff := ledsTurnOffSingle_of_range
    { port_adress := some a, memory := Function.update s.memory a (2 ^ (led - 1)) } a led rfl
    (by simpa using hm) h1 h16
  have hz : 2 ^ (led - 1) &&& (65535 ^^^ 2 ^ (led - 1)) = 0 := by
    interval_cases led <;> decide
  simp only [Function.update_same, Function.update_idem, hz] at hoff
  refine ⟨{ port_adress := some a, memory := Function.update s.memory a 0 }, ?_, ?_, ?_, ?_, ?_⟩
  · simp only [ledsInit_some, Option.bind_eq_bind, Option.some_bind, hon, hoff]
  · rfl
  · simp
  · simp [ledMaskOff_of_range led h1 h16]
  · rw [ledCheckStatus_of_range _ a led rfl (by simp) h1 h16]
    simp

theorem init_turnOnSingle_turnOffSingle_witness :
    1 ≤ 16 ∧ 16 ≤ 16 ∧
    ∃ t, (LedsInit (some 0) (unboundState 0xFFFF) >>= LedsTurnOnSingle 16
            >>= LedsTurnOffSingle 16) = some t ∧
      t.port_adress = some 0 ∧ t.memory 0 = 0x0000 ∧ some (t.memory 0) = LedMaskOff 16 ∧
      LedCheckStatus 16 t = some (false, t) :=
  ⟨by decide, by decide,
    init_turnOnSingle_turnOffSingle (unboundState 0xFFFF) 0 16 (by decide) (by decide)⟩

/-! ## Whole-register operations -/

/-- C6: on a bound register holding `r`, `LedsTurnOnMultiple m` succeeds for every
16-bit mask `m`, whatever its bits, and leaves the register equal to `r ||| m`
(nothing else changes); run right after `LedsInit` it leaves the register
equal to `m`. -/
theorem ledsTurnOnMultiple_or (s s0 : LedsState) (a m : Nat)
    (hp : s.port_adress = some a) (hr : s.memory a < 65536) (hm : m < 65536) :
    LedsTurnOnMultiple m s =
        some { s with memory := Function.update s.memory a (s.memory a ||| m) } ∧
      ∃ t, (LedsInit (some a) s0 >>= LedsTurnOnMultiple m) = some t ∧
        t.port_adress = some a ∧ t.memory a = m := by
  have key : ∀ u : LedsState, u.port_adress = some a → u.memory a < 65536 →
      LedsTurnOnMultiple m u =
        some { u with memory := Function.update u.memory a (u.memory a ||| m) } := by
    intro u hu hur
    unfold LedsTurnOnMultiple
    simp only [readPort, writePort, hu, Option.bind_eq_bind, Option.some_bind]
    rw [orInt_natCast _ _ hur hm, toUint16_natCast _ (Nat.or_lt_two_pow (n := 16) hur hm)]
  refine ⟨key s hp hr, { port_adress := some a, memory := Function.update s0.memory a m },
    ?_, rfl, by simp⟩
  have h0 := key { port_adress := some a, memory := Function.update s0.memory a 0 } rfl
    (by simp)
  simp only [Function.update_same, Nat.zero_or, Function.update_idem] at h0
  simp only [ledsInit_some, Option.bind_eq_bind, Option.some_bind, h0]

theorem ledsTurnOnMultiple_or_witness :
    (boundState 0x00F0).port_adress = some 0 ∧ (boundState 0x00F0).memory 0 < 65536 ∧
    0xFFFF < 65536 ∧
    (LedsTurnOnMultiple 0xFFFF (boundState 0x00F0) =
        some { boundState 0x00F0 with
          memory := Function.update (boundState 0x00F0).memory 0
            ((boundState 0x00F0).memory 0 ||| 0xFFFF) } ∧
      ∃ t, (LedsInit (some 0) (unboundState 0x1234) >>= LedsTurnOnMultiple 0xFFFF) = some t ∧
        t.port_adress = some 0 ∧ t.memory 0 = 0xFFFF) :=
  ⟨rfl, by decide, by decide,
    ledsTurnOnMultiple_or (boundState 0x00F0) (unboundState 0x1234) 0 0xFFFF rfl
      (by decide) (by decide)⟩

/-- C7: on a bound register, whatever it holds, `LedsTurnOnAll` succeeds and leaves
the register equal to 0xFFFF; `LedsTurnOffAll` succeeds and leaves it equal to
0x0000, both when called after `LedsTurnOnAll` and when called on the original
state. -/
theorem ledsTurnOnAll_ledsTurnOffAll (s : LedsState) (a : Nat) (hp : s.port_adress = some a) :
    (∃ t, LedsTurnOnAll s = some t ∧ t.port_adress = some a ∧ t.memory a = 0xFFFF) ∧
    (∃ u, (LedsTurnOnAll s >>= LedsTurnOffAll) = some u ∧ u.port_adress = some a ∧
      u.memory a = 0x0000) ∧
    (∃ u, LedsTurnOffAll s = some u ∧ u.port_adress = some a ∧ u.memory a = 0x0000) := by
  have hon : LedsTurnOnAll s = some { s with memory := Function.update s.memory a 0xFFFF } := by
    simp only [LedsTurnOnAll, writePort, hp]
    rfl
  have hoff : ∀ u : LedsState, u.port_adress = some a →
      LedsTurnOffAll u = some { u with memory := Function.update u.memory a 0x0000 } := by
    intro u hu
    simp only [LedsTurnOffAll, writePort, hu]
    rfl
  refine ⟨⟨_, hon, hp, by simp⟩,
    ⟨{ s with memory := Function.update (Function.update s.memory a 0xFFFF) a 0x0000 },
      ?_, hp, by simp⟩,
    ⟨_, hoff s hp, hp, by simp⟩⟩
  rw [hon, Option.bind_eq_bind, Option.some_bind]
  exact hoff { s with memory := Function.update s.memory a 0xFFFF } hp

theorem ledsTurnOnAll_ledsTurnOffAll_witness :
    (boundState 0x1234).port_adress = some 0 ∧
    ((∃ t, LedsTurnOnAll (boundState 0x1234) = some t ∧ t.port_adress = some 0 ∧
        t.memory 0 = 0xFFFF) ∧
      (∃ u, (LedsTurnOnAll (boundState 0x1234) >>= LedsTurnOffAll) = some u ∧
        u.port_adress = some 0 ∧ u.memory 0 = 0x0000) ∧
      (∃ u, LedsTurnOffAll (boundState 0x1234) = some u ∧ u.port_adress = some 0 ∧
        u.memory 0 = 0x0000)) :=
  ⟨rfl, ledsTurnOnAll_ledsTurnOffAll (boundState 0x1234) 0 rfl⟩

/-! ## Invalid and valid indices -/

/-- C8: for every `led` outside [1,16] (0 and 17 upwards, so 17..255 for an 8-bit
argument) and every state, `LedsTurnOnSingle led` and `LedsTurnOffSingle led`
return with the state untouched, and `LedCheckStatus led` returns false with the
state untouched: the register keeps its value, 0xFFFF included. -/
theorem invalid_led_is_noop (led : Nat) (s : LedsState) (h : led = 0 ∨ 17 ≤ led) :
    LedsTurnOnSingle led s = some s ∧ LedsTurnOffSingle led s = some s ∧
      LedCheckStatus led s = some (false, s) := by
  have hv := isLedPositionValid_of_not_range led h
  simp [LedsTurnOnSingle, LedsTurnOffSingle, LedCheckStatus, hv]

theorem invalid_led_is_noop_witness :
    (17 = 0 ∨ 17 ≤ 17) ∧
    (LedsTurnOnSingle 17 (boundState 0xFFFF) = some (boundState 0xFFFF) ∧
      LedsTurnOffSingle 17 (boundState 0xFFFF) = some (boundState 0xFFFF) ∧
      LedCheckStatus 17 (boundState 0xFFFF) = some (false, boundState 0xFFFF)) :=
  ⟨by decide, invalid_led_is_noop 17 (boundState 0xFFFF) (by decide)⟩

/-- C9: on a bound register holding the 16-bit value `r` and for `led` in [1,16],
`LedCheckStatus led` succeeds, leaves the state as it was, and returns true
exactly when bit `led-1` of `r` is 1. -/
theorem ledCheckStatus_iff_bit (s : LedsState) (a led : Nat)
    (hp : s.port_adress = some a) (hr : s.memory a < 65536) (h1 : 1 ≤ led) (h16 : led ≤ 16) :
    ∃ b, LedCheckStatus led s = some (b, s) ∧
      (b = true ↔ s.memory a / 2 ^ (led - 1) % 2 = 1) := by
  refine ⟨_, ledCheckStatus_of_range s a led hp hr h1 h16, ?_⟩
  rw [Nat.testBit_to_div_mod, decide_eq_true_eq]

theorem ledCheckStatus_iff_bit_witness :
    (boundState 0x0010).port_adress = some 0 ∧ (boundState 0x0010).memory 0 < 65536 ∧
    1 ≤ 5 ∧ 5 ≤ 16 ∧
    ∃ b, LedCheckStatus 5 (boundState 0x0010) = some (b, boundState 0x0010) ∧
      (b = true ↔ (boundState 0x0010).memory 0 / 2 ^ (5 - 1) % 2 = 1) :=
  ⟨rfl, by decide, by decide, by decide,
    ledCheckStatus_iff_bit (boundState 0x0010) 0 5 rfl (by decide) (by decide) (by decide)⟩

/-! ## The off mask -/

/-- C10: `LedMaskOff led` is the zero mask for every argument `led`, regardless of
the index: for the valid positions 1..16 and equally for 0 and for every index
above 16, such as 17, 33 and 255. -/
theorem ledMaskOff_always_zero :
    (∀ led : Nat, LedMaskOff led = some 0) ∧
    LedMaskOff 0 = some 0 ∧ LedMaskOff 17 = some 0 ∧ LedMaskOff 33 = some 0 ∧
    LedMaskOff 255 = some 0 := by
  have h : ∀ led : Nat, LedMaskOff led = some 0 := by
    intro led
    unfold LedMaskOff shiftLeftInt LED_BIT_OFF
    split_ifs <;> simp_all [toUint16]
  exact ⟨h, h 0, h 17, h 33, h 255⟩

/-! ## Bits of the register after a single-LED operation -/

theorem testBit_of_lt_65536 (r k : Nat) (hr : r < 65536) (hk : 16 ≤ k) :
    r.testBit k = false :=
  Nat.testBit_lt_two_pow
    (lt_of_lt_of_le (by omega : r < 2 ^ 16) (Nat.pow_le_pow_right (by norm_num) hk))

theorem testBit_or_two_pow (r i k : Nat) :
    (r ||| 2 ^ i).testBit k = (r.testBit k || decide (i = k)) := by
  rw [Nat.testBit_or, Nat.testBit_two_pow]

theorem testBit_and_clearMask (r i k : Nat) (hr : r < 65536) :
    (r &&& (65535 ^^^ 2 ^ i)).testBit k = (r.testBit k && !decide (i = k)) := by
  have h65 : (65535 : Nat) = 2 ^ 16 - 1 := by norm_num
  rw [Nat.testBit_and, Nat.testBit_xor, h65, Nat.testBit_two_pow_sub_one, Nat.testBit_two_pow]
  by_cases hk : k < 16
  · simp [hk]
  · rw [testBit_of_lt_65536 r k hr (by omega)]
    simp

theorem or_two_pow_lt (r led : Nat) (hr : r < 65536) (h16 : led ≤ 16) :
    r ||| 2 ^ (led - 1) < 65536 :=
  Nat.or_lt_two_pow (n := 16) hr (two_pow_pred_lt led h16)

theorem and_clearMask_lt (r led : Nat) (hr : r < 65536) :
    r &&& (65535 ^^^ 2 ^ (led - 1)) < 65536 :=
  lt_of_le_of_lt Nat.and_le_left hr

theorem ledsTurnOnSingle_of_not_range (led : Nat) (s : LedsState) (h : led = 0 ∨ 17 ≤ led) :
    LedsTurnOnSingle led s = some s := by
  simp [LedsTurnOnSingle, isLedPositionValid_of_not_range led h]

theorem ledsTurnOffSingle_of_not_range (led : Nat) (s : LedsState) (h : led = 0 ∨ 17 ≤ led) :
    LedsTurnOffSingle led s = some s := by
  simp [LedsTurnOffSingle, isLedPositionValid_of_not_range led h]

theorem ledCheckStatus_of_not_range (led : Nat) (s : LedsState) (h : led = 0 ∨ 17 ≤ led) :
    LedCheckStatus led s = some (false, s) := by
  simp [LedCheckStatus, isLedPositionValid_of_not_range led h]

theorem ledCheckStatus_update (s : LedsState) (a v led : Nat)
    (hp : s.port_adress = some a) (hv : v < 65536) (h1 : 1 ≤ led) (h16 : led ≤ 16) :
    LedCheckStatus led { s with memory := Function.update s.memory a v } =
      some (v.testBit (led - 1), { s with memory := Function.update s.memory a v }) := by
  have h := ledCheckStatus_of_range { s with memory := Function.update s.memory a v } a led hp
    (by simpa using hv) h1 h16
  simpa using h

theorem ledsTurnOnSingle_update (s : LedsState) (a v led : Nat)
    (hp : s.port_adress = some a) (hv : v < 65536) (h1 : 1 ≤ led) (h16 : led ≤ 16) :
    LedsTurnOnSingle led { s with memory := Function.update s.memory a v } =
      some { s with memory := Function.update s.memory a (v ||| 2 ^ (led - 1)) } := by
  have h := ledsTurnOnSingle_of_range { s with memory := Function.update s.memory a v } a led hp
    (by simpa using hv) h1 h16
  simpa using h

theorem ledsTurnOffSingle_update (s : LedsState) (a v led : Nat)
    (hp : s.port_adress = some a) (hv : v < 65536) (h1 : 1 ≤ led) (h16 : led ≤ 16) :
    LedsTurnOffSingle led { s with memory := Function.update s.memory a v } =
      some { s with memory := Function.update s.memory a (v &&& (65535 ^^^ 2 ^ (led - 1))) } := by
  have h := ledsTurnOffSingle_of_range { s with memory := Function.update s.memory a v } a led hp
    (by simpa using hv) h1 h16
  simpa using h

theorem ledsInit_bind_turnOnSingle (s : LedsState) (a led : Nat)
    (h1 : 1 ≤ led) (h16 : led ≤ 16) :
    (LedsInit (some a) s >>= LedsTurnOnSingle led) =
      some { port_adress := some a, memory := Function.update s.memory a (2 ^ (led - 1)) } := by
  have hon := ledsTurnOnSingle_of_range
    { port_adress := some a, memory := Function.update s.memory a 0 } a led rfl (by simp) h1 h16
  simp only [Function.update_same, Nat.zero_or, Function.update_idem] at hon
  rw [ledsInit_some, Option.bind_eq_bind, Option.some_bind, hon]

theorem ledCheckStatus_after_init (s : LedsState) (a v led : Nat)
    (hv : v < 65536) (h1 : 1 ≤ led) (h16 : led ≤ 16) :
    LedCheckStatus led { port_adress := some a, memory := Function.update s.memory a v } =
      some (v.testBit (led - 1),
        { port_adress := some a, memory := Function.update s.memory a v }) := by
  have h := ledCheckStatus_of_range
    { port_adress := some a, memory := Function.update s.memory a v } a led rfl
    (by simpa using hv) h1 h16
  simpa using h

/-! ## The mask validator -/

/-- C11: `IsLedRangeValid mask` is true for every 16-bit mask value `mask`. -/
theorem isLedRangeValid_of_uint16 (mask : Nat) (h : mask < 65536) :
    IsLedRangeValid mask = true := by
  simp only [IsLedRangeValid, ALL_LEDS_OFF, ALL_LEDS_ON, Bool.and_eq_true, decide_eq_true_eq]
  omega

theorem isLedRangeValid_of_uint16_witness :
    0xFFFF < 65536 ∧ IsLedRangeValid 0xFFFF = true :=
  ⟨by decide, isLedRangeValid_of_uint16 0xFFFF (by decide)⟩

/-! ## Frame of the single-LED operations -/

/-- C12: on a bound register holding the 16-bit value `r` and for `led` in [1,16],
`LedsTurnOnSingle led` succeeds and leaves the register equal to
`r ||| (1 <<< (led-1))`: bit `led-1` is 1, every other bit of the register and
every other memory cell keeps its value, `LedCheckStatus led` is then true and
`LedCheckStatus j` answers as before for every valid `j ≠ led`. After `LedsInit`
and `LedsTurnOnSingle 5` the register is 0x0010, `LedCheckStatus 5` is true and
`LedCheckStatus 4` is false. -/
theorem ledsTurnOnSingle_frame (s s0 : LedsState) (a led : Nat)
    (hp : s.port_adress = some a) (hr : s.memory a < 65536) (h1 : 1 ≤ led) (h16 : led ≤ 16) :
    (∃ t, LedsTurnOnSingle led s = some t ∧ t.port_adress = some a ∧
      t.memory a = s.memory a ||| (1 <<< (led - 1)) ∧
      (t.memory a).testBit (led - 1) = true ∧
      (∀ i, i ≠ led - 1 → (t.memory a).testBit i = (s.memory a).testBit i) ∧
      (∀ c, c ≠ a → t.memory c = s.memory c) ∧
      LedCheckStatus led t = some (true, t) ∧
      ∀ j, 1 ≤ j → j ≤ 16 → j ≠ led →
        ∃ b, LedCheckStatus j s = some (b, s) ∧ LedCheckStatus j t = some (b, t)) ∧
    ∃ t5, (LedsInit (some a) s0 >>= LedsTurnOnSingle 5) = some t5 ∧ t5.memory a = 0x0010 ∧
      LedCheckStatus 5 t5 = some (true, t5) ∧ LedCheckStatus 4 t5 = some (false, t5) := by
  constructor
  · have hv : s.memory a ||| 2 ^ (led - 1) < 65536 := or_two_pow_lt _ led hr h16
    refine ⟨{ s with memory := Function.update s.memory a (s.memory a ||| 2 ^ (led - 1)) },
      ledsTurnOnSingle_of_range s a led hp hr h1 h16, hp, ?_, ?_, ?_, ?_, ?_, ?_⟩
    · simp [Nat.one_shiftLeft]
    · simp [testBit_or_two_pow]
    · intro i hi
      have : ¬ led - 1 = i := fun h => hi h.symm
      simp [testBit_or_two_pow, this]
    · intro c hc
      simp [Function.update_noteq hc]
    · rw [ledCheckStatus_update s a _ led hp hv h1 h16]
      simp [testBit_or_two_pow]
    · intro j hj1 hj16 hjl
      have hne : ¬ led - 1 = j - 1 := by omega
      refine ⟨(s.memory a).testBit (j - 1), ledCheckStatus_of_range s a j hp hr hj1 hj16, ?_⟩
      rw [ledCheckStatus_update s a _ j hp hv hj1 hj16]
      simp [testBit_or_two_pow, hne]
  · refine ⟨{ port_adress := some a, memory := Function.update s0.memory a (2 ^ (5 - 1)) },
      ledsInit_bind_turnOnSingle s0 a 5 (by decide) (by decide), by simp, ?_, ?_⟩
    · rw [ledCheckStatus_after_init s0 a _ 5 (by norm_num) (by decide) (by decide),
        Nat.testBit_two_pow_self]
    · rw [ledCheckStatus_after_init s0 a _ 4 (by norm_num) (by decide) (by decide),
        Nat.testBit_two_pow]
      simp

theorem ledsTurnOnSingle_frame_witness :
    (boundState 0x0101).port_adress = some 0 ∧ (boundState 0x0101).memory 0 < 65536 ∧
    1 ≤ 5 ∧ 5 ≤ 16 ∧
    ((∃ t, LedsTurnOnSingle 5 (boundState 0x0101) = some t ∧ t.port_adress = some 0 ∧
      t.memory 0 = (boundState 0x0101).memory 0 ||| (1 <<< (5 - 1)) ∧
      (t.memory 0).testBit (5 - 1) = true ∧
      (∀ i, i ≠ 5 - 1 → (t.memory 0).testBit i = ((boundState 0x0101).memory 0).testBit i) ∧
      (∀ c, c ≠ 0 → t.memory c = (boundState 0x0101).memory c) ∧
      LedCheckStatus 5 t = some (true, t) ∧
      ∀ j, 1 ≤ j → j ≤ 16 → j ≠ 5 →
        ∃ b, LedCheckStatus j (boundState 0x0101) = some (b, boundState 0x0101) ∧
          LedCheckStatus j t = some (b, t)) ∧
    ∃ t5, (LedsInit (some 0) (unboundState 0xFFFF) >>= LedsTurnOnSingle 5) = some t5 ∧
      t5.memory 0 = 0x0010 ∧
      LedCheckStatus 5 t5 = some (true, t5) ∧ LedCheckStatus 4 t5 = some (false, t5)) :=
  ⟨rfl, by decide, by decide, by decide,
    ledsTurnOnSingle_frame (boundState 0x0101) (unboundState 0xFFFF) 0 5 rfl (by decide)
      (by decide) (by decide)⟩

/-- C13: on a bound register holding the 16-bit value `r` and for `led` in [1,16],
`LedsTurnOffSingle led` succeeds and leaves the register equal to
`r &&& (0xFFFF ^^^ (1 <<< (led-1)))`: the complement of the mask is a negative
`int`, and the AND with it, converted back to `uint16_t`, has bit `led-1` equal
to 0 while every other bit of the register and every other memory cell keeps
its value; `LedCheckStatus led` is then false and `LedCheckStatus j` answers as
before for every valid `j ≠ led`. -/
theorem ledsTurnOffSingle_frame (s : LedsState) (a led : Nat)
    (hp : s.port_adress = some a) (hr : s.memory a < 65536) (h1 : 1 ≤ led) (h16 : led ≤ 16) :
    ∃ t, LedsTurnOffSingle led s = some t ∧ t.port_adress = some a ∧
      t.memory a = s.memory a &&& (0xFFFF ^^^ (1 <<< (led - 1))) ∧
      notInt ((1 <<< (led - 1) : Nat) : Int) < 0 ∧
      toUint16 (andInt (s.memory a : Int) (notInt ((1 <<< (led - 1) : Nat) : Int))) =
        t.memory a ∧
      (t.memory a).testBit (led - 1) = false ∧
      (∀ i, i ≠ led - 1 → (t.memory a).testBit i = (s.memory a).testBit i) ∧
      (∀ c, c ≠ a → t.memory c = s.memory c) ∧
      LedCheckStatus led t = some (false, t) ∧
      ∀ j, 1 ≤ j → j ≤ 16 → j ≠ led →
        ∃ b, LedCheckStatus j s = some (b, s) ∧ LedCheckStatus j t = some (b, t) := by
  have hm := two_pow_pred_lt led h16
  have hv : s.memory a &&& (65535 ^^^ 2 ^ (led - 1)) < 65536 := and_clearMask_lt _ led hr
  refine ⟨{ s with memory := Function.update s.memory a (s.memory a &&& (65535 ^^^ 2 ^ (led - 1))) },
    ledsTurnOffSingle_of_range s a led hp hr h1 h16, hp, ?_, ?_, ?_, ?_, ?_, ?_, ?_, ?_⟩
  · simp [Nat.one_shiftLeft]
  · rw [Nat.one_shiftLeft]
    interval_cases led <;> decide
  · rw [Nat.one_shiftLeft, andInt_notInt_natCast _ _ hr hm, toUint16_natCast _ hv]
    simp
  · simp [testBit_and_clearMask _ _ _ hr]
  · intro i hi
    have : ¬ led - 1 = i := fun h => hi h.symm
    simp [testBit_and_clearMask _ _ _ hr, this]
  · intro c hc
    simp [Function.update_noteq hc]
  · rw [ledCheckStatus_update s a _ led hp hv h1 h16]
    simp [testBit_and_clearMask _ _ _ hr]
  · intro j hj1 hj16 hjl
    have hne : ¬ led - 1 = j - 1 := by omega
    refine ⟨(s.memory a).testBit (j - 1), ledCheckStatus_of_range s a j hp hr hj1 hj16, ?_⟩
    rw [ledCheckStatus_update s a _ j hp hv hj1 hj16]
    simp [testBit_and_clearMask _ _ _ hr, hne]

theorem ledsTurnOffSingle_frame_witness :
    (boundState 0xFFFF).port_adress = some 0 ∧ (boundState 0xFFFF).memory 0 < 65536 ∧
    1 ≤ 16 ∧ 16 ≤ 16 ∧
    ∃ t, LedsTurnOffSingle 16 (boundState 0xFFFF) = some t ∧ t.port_adress = some 0 ∧
      t.memory 0 = (boundState 0xFFFF).memory 0 &&& (0xFFFF ^^^ (1 <<< (16 - 1))) ∧
      notInt ((1 <<< (16 - 1) : Nat) : Int) < 0 ∧
      toUint16 (andInt ((boundState 0xFFFF).memory 0 : Int)
        (notInt ((1 <<< (16 - 1) : Nat) : Int))) = t.memory 0 ∧
      (t.memory 0).testBit (16 - 1) = false ∧
      (∀ i, i ≠ 16 - 1 → (t.memory 0).testBit i = ((boundState 0xFFFF).memory 0).testBit i) ∧
      (∀ c, c ≠ 0 → t.memory c = (boundState 0xFFFF).memory c) ∧
      LedCheckStatus 16 t = some (false, t) ∧
      ∀ j, 1 ≤ j → j ≤ 16 → j ≠ 16 →
        ∃ b, LedCheckStatus j (boundState 0xFFFF) = some (b, boundState 0xFFFF) ∧
          LedCheckStatus j t = some (b, t) :=
  ⟨rfl, by decide, by decide, by decide,
    ledsTurnOffSingle_frame (boundState 0xFFFF) 0 16 rfl (by decide) (by decide) (by decide)⟩

/-! ## Reachability of the shift -/

theorem logged_fst_eq (led : Nat) (s : LedsState) :
    (LedsTurnOnSingleLogged led s).1 = LedsTurnOnSingle led s ∧
    (LedsTurnOffSingleLogged led s).1 = LedsTurnOffSingle led s ∧
    (LedCheckStatusLogged led s).1 = LedCheckStatus led s := by
  unfold LedsTurnOnSingleLogged LedsTurnOffSingleLogged LedCheckStatusLogged
    LedsTurnOnSingle LedsTurnOffSingle LedCheckStatus
  cases IsLedPositionValid led <;> exact ⟨rfl, rfl, rfl⟩

theorem logged_snd_eq (led : Nat) (s : LedsState) :
    (LedsTurnOnSingleLogged led s).2 = (if 1 ≤ led ∧ led ≤ 16 then [led] else []) ∧
    (LedsTurnOffSingleLogged led s).2 = (if 1 ≤ led ∧ led ≤ 16 then [led] else []) ∧
    (LedCheckStatusLogged led s).2 = (if 1 ≤ led ∧ led ≤ 16 then [led] else []) := by
  unfold LedsTurnOnSingleLogged LedsTurnOffSingleLogged LedCheckStatusLogged
  by_cases h : 1 ≤ led ∧ led ≤ 16
  · rw [isLedPositionValid_of_range led h.1 h.2, if_pos h]
    exact ⟨rfl, rfl, rfl⟩
  · rw [isLedPositionValid_of_not_range led (by omega), if_neg h]
    exact ⟨rfl, rfl, rfl⟩

/-- C14: for every argument `led` (8-bit or not) and every state, the executions of
`LedsTurnOnSingle`, `LedsTurnOffSingle` and `LedCheckStatus` call `LedMaskOn`
exactly once, with `led`, when `led` is in [1,16], and not at all otherwise; so
every call of `LedMaskOn` they make has its argument in [1,16], shifts by an
amount `led-1` in [0,15], and returns a defined mask. -/
theorem ledMaskOn_reached_only_in_range (led : Nat) (s : LedsState) :
    ((LedsTurnOnSingleLogged led s).1 = LedsTurnOnSingle led s ∧
      (LedsTurnOffSingleLogged led s).1 = LedsTurnOffSingle led s ∧
      (LedCheckStatusLogged led s).1 = LedCheckStatus led s) ∧
    ((LedsTurnOnSingleLogged led s).2 = (if 1 ≤ led ∧ led ≤ 16 then [led] else []) ∧
      (LedsTurnOffSingleLogged led s).2 = (if 1 ≤ led ∧ led ≤ 16 then [led] else []) ∧
      (LedCheckStatusLogged led s).2 = (if 1 ≤ led ∧ led ≤ 16 then [led] else [])) ∧
    ∀ x, (x ∈ (LedsTurnOnSingleLogged led s).2 ∨ x ∈ (LedsTurnOffSingleLogged led s).2 ∨
        x ∈ (LedCheckStatusLogged led s).2) →
      1 ≤ x ∧ x ≤ 16 ∧ 0 ≤ maskShiftAmount x ∧ maskShiftAmount x ≤ 15 ∧
      LedMaskOn x = (shiftLeftInt LED_BIT_ON (maskShiftAmount x)).map toUint16 ∧
      ∃ m, LedMaskOn x = some m := by
  obtain ⟨e1, e2, e3⟩ := logged_snd_eq led s
  refine ⟨logged_fst_eq led s, ⟨e1, e2, e3⟩, ?_⟩
  intro x hx
  rw [e1, e2, e3] at hx
  have hmem : x ∈ (if 1 ≤ led ∧ led ≤ 16 then [led] else []) := by
    rcases hx with h | h | h <;> exact h
  by_cases h : 1 ≤ led ∧ led ≤ 16
  · rw [if_pos h, List.mem_singleton] at hmem
    subst hmem
    refine ⟨h.1, h.2, ?_, ?_, rfl, _, ledMaskOn_of_range x h.1 h.2⟩
    · unfold maskShiftAmount
      omega
    · unfold maskShiftAmount
      omega
  · rw [if_neg h] at hmem
    exact absurd hmem (List.not_mem_nil x)

/-! ## The register and the sixteen status queries -/

theorem statusOf_of_range (s : LedsState) (a led : Nat)
    (hp : s.port_adress = some a) (hr : s.memory a < 65536) (h1 : 1 ≤ led) (h16 : led ≤ 16) :
    statusOf led s = some ((s.memory a).testBit (led - 1)) := by
  unfold statusOf
  rw [ledCheckStatus_of_range s a led hp hr h1 h16]
  rfl

theorem litMask_of_range (s : LedsState) (a led : Nat)
    (hp : s.port_adress = some a) (hr : s.memory a < 65536) (h1 : 1 ≤ led) (h16 : led ≤ 16) :
    litMask s led = if (s.memory a).testBit (led - 1) = true then 2 ^ (led - 1) else 0 := by
  unfold litMask
  rw [statusOf_of_range s a led hp hr h1 h16, ledMaskOn_of_range led h1 h16]
  cases (s.memory a).testBit (led - 1) <;> simp

theorem testBit_foldl_or (l : List Nat) (acc i : Nat) :
    (l.foldl (fun x m => x ||| m) acc).testBit i =
      (acc.testBit i || l.any (fun m => m.testBit i)) := by
  induction l generalizing acc with
  | nil => simp
  | cons m l ih => simp [ih, Nat.testBit_or, Bool.or_assoc]

theorem testBit_orOfLitMasks (s : LedsState) (a i : Nat)
    (hp : s.port_adress = some a) (hr : s.memory a < 65536) :
    (orOfLitMasks s).testBit i = (s.memory a).testBit i := by
  unfold orOfLitMasks
  rw [testBit_foldl_or, Nat.zero_testBit, Bool.false_or, List.any_map, Bool.eq_iff_iff,
    List.any_eq_true]
  constructor
  · rintro ⟨led, hmem, hbit⟩
    rw [List.mem_range'_1] at hmem
    rw [Function.comp_apply, litMask_of_range s a led hp hr hmem.1 (by omega)] at hbit
    by_cases hb : (s.memory a).testBit (led - 1) = true
    · rw [if_pos hb, Nat.testBit_two_pow, decide_eq_true_eq] at hbit
      rw [← hbit]
      exact hb
    · rw [if_neg hb, Nat.zero_testBit] at hbit
      exact absurd hbit (by simp)
  · intro hbit
    have hi : i < 16 := by
      by_contra hge
      rw [testBit_of_lt_65536 _ i hr (by omega)] at hbit
      exact absurd hbit (by simp)
    refine ⟨i + 1, by rw [List.mem_range'_1]; omega, ?_⟩
    rw [Function.comp_apply, litMask_of_range s a (i + 1) hp hr (by omega) (by omega)]
    simp [hbit]

/-- C15: two bound 16-bit registers on which `LedCheckStatus led` gives the same
answer for every `led` in [1,16] hold the same value; and a bound 16-bit register
equals the OR of the masks `LedMaskOn led` over the `led` in [1,16] whose status
is true. -/
theorem register_determined_by_status (s1 s2 : LedsState) (a1 a2 : Nat)
    (hp1 : s1.port_adress = some a1) (hr1 : s1.memory a1 < 65536)
    (hp2 : s2.port_adress = some a2) (hr2 : s2.memory a2 < 65536) :
    ((∀ led, 1 ≤ led → led ≤ 16 → statusOf led s1 = statusOf led s2) →
      s1.memory a1 = s2.memory a2) ∧
    s1.memory a1 = orOfLitMasks s1 := by
  constructor
  · intro h
    apply Nat.eq_of_testBit_eq
    intro i
    by_cases hi : i < 16
    · have hs := h (i + 1) (by omega) (by omega)
      rw [statusOf_of_range s1 a1 (i + 1) hp1 hr1 (by omega) (by omega),
        statusOf_of_range s2 a2 (i + 1) hp2 hr2 (by omega) (by omega)] at hs
      simpa using hs
    · rw [testBit_of_lt_65536 _ i hr1 (by omega), testBit_of_lt_65536 _ i hr2 (by omega)]
  · apply Nat.eq_of_testBit_eq
    intro i
    exact (testBit_orOfLitMasks s1 a1 i hp1 hr1).symm

theorem register_determined_by_status_witness :
    (boundState 0xBEEF).port_adress = some 0 ∧ (boundState 0xBEEF).memory 0 < 65536 ∧
    (LedsState.mk (some 7) (fun _ => 0xBEEF)).port_adress = some 7 ∧
    (LedsState.mk (some 7) (fun _ => 0xBEEF)).memory 7 < 65536 ∧
    (((∀ led, 1 ≤ led → led ≤ 16 →
        statusOf led (boundState 0xBEEF) = statusOf led (LedsState.mk (some 7) (fun _ => 0xBEEF))) →
      (boundState 0xBEEF).memory 0 = (LedsState.mk (some 7) (fun _ => 0xBEEF)).memory 7) ∧
    (boundState 0xBEEF).memory 0 = orOfLitMasks (boundState 0xBEEF)) :=
  ⟨rfl, by decide, rfl, by decide,
    register_determined_by_status (boundState 0xBEEF) (LedsState.mk (some 7) (fun _ => 0xBEEF))
      0 7 rfl (by decide) rfl (by decide)⟩

/-! ## Sixteen single calls against one whole-register call -/

theorem update_memory_self (s : LedsState) (a : Nat) :
    ({ s with memory := Function.update s.memory a (s.memory a) } : LedsState) = s := by
  cases s
  simp

theorem ledsTurnOnAll_of_bound (s : LedsState) (a : Nat) (hp : s.port_adress = some a) :
    LedsTurnOnAll s = some { s with memory := Function.update s.memory a 65535 } := by
  simp only [LedsTurnOnAll, writePort, hp]
  rfl

theorem ledsTurnOffAll_of_bound (s : LedsState) (a : Nat) (hp : s.port_adress = some a) :
    LedsTurnOffAll s = some { s with memory := Function.update s.memory a 0 } := by
  simp only [LedsTurnOffAll, writePort, hp]
  rfl

theorem turnOnEach_cons (led : Nat) (l : List Nat) (s : LedsState) :
    turnOnEach (led :: l) s = LedsTurnOnSingle led s >>= turnOnEach l := by
  unfold turnOnEach
  rw [List.foldlM_cons]

theorem turnOffEach_cons (led : Nat) (l : List Nat) (s : LedsState) :
    turnOffEach (led :: l) s = LedsTurnOffSingle led s >>= turnOffEach l := by
  unfold turnOffEach
  rw [List.foldlM_cons]

theorem turnOnEach_update (s : LedsState) (a : Nat) (hp : s.port_adress = some a)
    (l : List Nat) :
    ∀ v, v < 65536 →
      ∃ w, turnOnEach l { s with memory := Function.update s.memory a v } =
          some { s with memory := Function.update s.memory a w } ∧
        w < 65536 ∧ ∀ i, w.testBit i = (v.testBit i || decide (i < 16 ∧ i + 1 ∈ l)) := by
  induction l with
  | nil =>
    intro v hv
    exact ⟨v, rfl, hv, fun i => by simp⟩
  | cons led l ih =>
    intro v hv
    by_cases h : 1 ≤ led ∧ led ≤ 16
    · obtain ⟨w, hw, hw16, hbits⟩ := ih (v ||| 2 ^ (led - 1)) (or_two_pow_lt v led hv h.2)
      refine ⟨w, ?_, hw16, fun i => ?_⟩
      · rw [turnOnEach_cons, ledsTurnOnSingle_update s a v led hp hv h.1 h.2,
          Option.bind_eq_bind, Option.some_bind, hw]
      · have key : led - 1 = i ↔ (i < 16 ∧ i + 1 = led) := by omega
        rw [hbits i, testBit_or_two_pow, Bool.eq_iff_iff]
        simp only [Bool.or_eq_true, decide_eq_true_eq, List.mem_cons, key]
        tauto
    · obtain ⟨w, hw, hw16, hbits⟩ := ih v hv
      refine ⟨w, ?_, hw16, fun i => ?_⟩
      · rw [turnOnEach_cons, ledsTurnOnSingle_of_not_range led _ (by omega),
          Option.bind_eq_bind, Option.some_bind, hw]
      · have key : ¬ (i < 16 ∧ i + 1 = led) := by omega
        rw [hbits i, Bool.eq_iff_iff]
        simp only [Bool.or_eq_true, decide_eq_true_eq, List.mem_cons]
        tauto

theorem turnOffEach_update (s : LedsState) (a : Nat) (hp : s.port_adress = some a)
    (l : List Nat) :
    ∀ v, v < 65536 →
      ∃ w, turnOffEach l { s with memory := Function.update s.memory a v } =
          some { s with memory := Function.update s.memory a w } ∧
        w < 65536 ∧ ∀ i, w.testBit i = (v.testBit i && !decide (i < 16 ∧ i + 1 ∈ l)) := by
  induction l with
  | nil =>
    intro v hv
    exact ⟨v, rfl, hv, fun i => by simp⟩
  | cons led l ih =>
    intro v hv
    by_cases h : 1 ≤ led ∧ led ≤ 16
    · obtain ⟨w, hw, hw16, hbits⟩ :=
        ih (v &&& (65535 ^^^ 2 ^ (led - 1))) (and_clearMask_lt v led hv)
      refine ⟨w, ?_, hw16, fun i => ?_⟩
      · rw [turnOffEach_cons, ledsTurnOffSingle_update s a v led hp hv h.1 h.2,
          Option.bind_eq_bind, Option.some_bind, hw]
      · have key : led - 1 = i ↔ (i < 16 ∧ i + 1 = led) := by omega
        rw [hbits i, testBit_and_clearMask v _ i hv, Bool.eq_iff_iff]
        simp only [Bool.and_eq_true, Bool.not_eq_true', decide_eq_false_iff_not,
          decide_eq_true_eq, List.mem_cons, key]
        tauto
    · obtain ⟨w, hw, hw16, hbits⟩ := ih v hv
      refine ⟨w, ?_, hw16, fun i => ?_⟩
      · rw [turnOffEach_cons, ledsTurnOffSingle_of_not_range led _ (by omega),
          Option.bind_eq_bind, Option.some_bind, hw]
      · have key : ¬ (i < 16 ∧ i + 1 = led) := by omega
        rw [hbits i, Bool.eq_iff_iff]
        simp only [Bool.and_eq_true, Bool.not_eq_true', decide_eq_false_iff_not,
          decide_eq_true_eq, List.mem_cons]
        tauto

theorem succ_mem_of_perm (l : List Nat) (hl : l.Perm (List.range' 1 16)) (i : Nat) :
    (i < 16 ∧ i + 1 ∈ l) ↔ i < 16 := by
  rw [hl.mem_iff, List.mem_range'_1]
  omega

theorem testBit_65535 (i : Nat) : (65535 : Nat).testBit i = decide (i < 16) := by
  have h65 : (65535 : Nat) = 2 ^ 16 - 1 := by norm_num
  rw [h65, Nat.testBit_two_pow_sub_one]

/-- C16: on a bound 16-bit register, calling `LedsTurnOnSingle led` once for each
`led` of 1..16, in any order `l`, succeeds and leaves the register equal to
0xFFFF, the very state `LedsTurnOnAll` produces; calling `LedsTurnOffSingle led`
once for each `led` of 1..16, in any order, succeeds and leaves it equal to
0x0000, the very state `LedsTurnOffAll` produces. -/
theorem turnEach_eq_turnAll (s : LedsState) (a : Nat) (l : List Nat)
    (hp : s.port_adress = some a) (hr : s.memory a < 65536)
    (hl : l.Perm (List.range' 1 16)) :
    turnOnEach l s = LedsTurnOnAll s ∧ turnOffEach l s = LedsTurnOffAll s ∧
    (∃ t, turnOnEach l s = some t ∧ t.port_adress = some a ∧ t.memory a = 0xFFFF) ∧
    (∃ u, turnOffEach l s = some u ∧ u.port_adress = some a ∧ u.memory a = 0x0000) := by
  obtain ⟨w, hw, hw16, hwbits⟩ := turnOnEach_update s a hp l (s.memory a) hr
  obtain ⟨z, hz, hz16, hzbits⟩ := turnOffEach_update s a hp l (s.memory a) hr
  rw [update_memory_self] at hw hz
  have hw' : w = 65535 := by
    apply Nat.eq_of_testBit_eq
    intro i
    have hd : decide (i < 16 ∧ i + 1 ∈ l) = decide (i < 16) :=
      decide_eq_decide.mpr (succ_mem_of_perm l hl i)
    rw [hwbits i, testBit_65535, hd]
    by_cases hi : i < 16
    · simp [hi]
    · rw [testBit_of_lt_65536 _ i hr (by omega)]
      simp
  have hz' : z = 0 := by
    apply Nat.eq_of_testBit_eq
    intro i
    have hd : decide (i < 16 ∧ i + 1 ∈ l) = decide (i < 16) :=
      decide_eq_decide.mpr (succ_mem_of_perm l hl i)
    rw [hzbits i, Nat.zero_testBit, hd]
    by_cases hi : i < 16
    · simp [hi]
    · rw [testBit_of_lt_65536 _ i hr (by omega)]
      simp
  subst hw' hz'
  refine ⟨?_, ?_, ⟨_, hw, hp, by simp⟩, ⟨_, hz, hp, by simp⟩⟩
  · rw [hw, ledsTurnOnAll_of_bound s a hp]
  · rw [hz, ledsTurnOffAll_of_bound s a hp]

theorem turnEach_eq_turnAll_witness :
    (boundState 0x1234).port_adress = some 0 ∧ (boundState 0x1234).memory 0 < 65536 ∧
    (List.range' 1 16).reverse.Perm (List.range' 1 16) ∧
    (turnOnEach (List.range' 1 16).reverse (boundState 0x1234) =
        LedsTurnOnAll (boundState 0x1234) ∧
      turnOffEach (List.range' 1 16).reverse (boundState 0x1234) =
        LedsTurnOffAll (boundState 0x1234) ∧
      (∃ t, turnOnEach (List.range' 1 16).reverse (boundState 0x1234) = some t ∧
        t.port_adress = some 0 ∧ t.memory 0 = 0xFFFF) ∧
      (∃ u, turnOffEach (List.range' 1 16).reverse (boundState 0x1234) = some u ∧
        u.port_adress = some 0 ∧ u.memory 0 = 0x0000)) :=
  ⟨rfl, by decide, List.reverse_perm _,
    turnEach_eq_turnAll (boundState 0x1234) 0 (List.range' 1 16).reverse rfl (by decide)
      (List.reverse_perm _)⟩

/-! ## Turning one LED on and then off -/

theorem or_and_clearMask (r i : Nat) (hr : r < 65536) (hi : i < 16) :
    (r ||| 2 ^ i) &&& (65535 ^^^ 2 ^ i) = r &&& (65535 ^^^ 2 ^ i) := by
  have hm : 2 ^ i < 65536 :=
    lt_of_le_of_lt (Nat.pow_le_pow_right (by norm_num) (by omega : i ≤ 15)) (by norm_num)
  have hv : r ||| 2 ^ i < 65536 := Nat.or_lt_two_pow (n := 16) hr hm
  apply Nat.eq_of_testBit_eq
  intro k
  rw [testBit_and_clearMask _ _ _ hv, testBit_and_clearMask _ _ _ hr, testBit_or_two_pow]
  by_cases h : i = k <;> simp [h]

theorem and_clearMask_eq_self_iff (r i : Nat) (hr : r < 65536) :
    r &&& (65535 ^^^ 2 ^ i) = r ↔ r.testBit i = false := by
  constructor
  · intro h
    have hb := testBit_and_clearMask r i i hr
    rw [h] at hb
    simpa using hb
  · intro h
    apply Nat.eq_of_testBit_eq
    intro k
    rw [testBit_and_clearMask _ _ _ hr]
    by_cases hik : i = k
    · subst hik
      simp [h]
    · simp [hik]

/-- C17: on a bound register holding the 16-bit value `r` and for `led` in [1,16],
`LedsTurnOnSingle led` followed by `LedsTurnOffSingle led` succeeds and leaves
the register equal to `r` with bit `led-1` cleared (every other bit as in `r`);
the final register equals `r` exactly when `LedCheckStatus led` was false on the
original state. -/
theorem turnOn_then_turnOff (s : LedsState) (a led : Nat)
    (hp : s.port_adress = some a) (hr : s.memory a < 65536) (h1 : 1 ≤ led) (h16 : led ≤ 16) :
    ∃ t, (LedsTurnOnSingle led s >>= LedsTurnOffSingle led) = some t ∧
      t.port_adress = some a ∧
      t.memory a = s.memory a &&& (0xFFFF ^^^ (1 <<< (led - 1))) ∧
      (t.memory a).testBit (led - 1) = false ∧
      (∀ i, i ≠ led - 1 → (t.memory a).testBit i = (s.memory a).testBit i) ∧
      (∀ c, c ≠ a → t.memory c = s.memory c) ∧
      (t.memory a = s.memory a ↔ LedCheckStatus led s = some (false, s)) := by
  have hv : s.memory a ||| 2 ^ (led - 1) < 65536 := or_two_pow_lt _ led hr h16
  refine ⟨{ s with memory := Function.update s.memory a (s.memory a &&& (65535 ^^^ 2 ^ (led - 1))) },
    ?_, hp, ?_, ?_, ?_, ?_, ?_⟩
  · rw [ledsTurnOnSingle_of_range s a led hp hr h1 h16, Option.bind_eq_bind, Option.some_bind,
      ledsTurnOffSingle_update s a _ led hp hv h1 h16,
      or_and_clearMask _ _ hr (by omega)]
  · simp [Nat.one_shiftLeft]
  · simp [testBit_and_clearMask _ _ _ hr]
  · intro i hi
    have : ¬ led - 1 = i := fun h => hi h.symm
    simp [testBit_and_clearMask _ _ _ hr, this]
  · intro c hc
    simp [Function.update_noteq hc]
  · rw [ledCheckStatus_of_range s a led hp hr h1 h16]
    simp only [Function.update_same, Option.some.injEq, Prod.mk.injEq, and_true]
    exact and_clearMask_eq_self_iff _ _ hr

theorem turnOn_then_turnOff_witness :
    (boundState 0xFFFF).port_adress = some 0 ∧ (boundState 0xFFFF).memory 0 < 65536 ∧
    1 ≤ 5 ∧ 5 ≤ 16 ∧
    ∃ t, (LedsTurnOnSingle 5 (boundState 0xFFFF) >>= LedsTurnOffSingle 5) = some t ∧
      t.port_adress = some 0 ∧
      t.memory 0 = (boundState 0xFFFF).memory 0 &&& (0xFFFF ^^^ (1 <<< (5 - 1))) ∧
      (t.memory 0).testBit (5 - 1) = false ∧
      (∀ i, i ≠ 5 - 1 → (t.memory 0).testBit i = ((boundState 0xFFFF).memory 0).testBit i) ∧
      (∀ c, c ≠ 0 → t.memory c = (boundState 0xFFFF).memory c) ∧
      (t.memory 0 = (boundState 0xFFFF).memory 0 ↔
        LedCheckStatus 5 (boundState 0xFFFF) = some (false, boundState 0xFFFF)) :=
  ⟨rfl, by decide, by decide, by decide,
    turnOn_then_turnOff (boundState 0xFFFF) 0 5 rfl (by decide) (by decide) (by decide)⟩

/-! ## Commutation of the single-LED operations -/

theorem ledsTurnOnSingle_update_any (s : LedsState) (a v led : Nat)
    (hp : s.port_adress = some a) (hv : v < 65536) :
    LedsTurnOnSingle led { s with memory := Function.update s.memory a v } =
      some { s with
        memory :=
          Function.update s.memory a (if 1 ≤ led ∧ led ≤ 16 then v ||| 2 ^ (led - 1) else v) } := by
  by_cases h : 1 ≤ led ∧ led ≤ 16
  · rw [if_pos h, ledsTurnOnSingle_update s a v led hp hv h.1 h.2]
  · rw [if_neg h, ledsTurnOnSingle_of_not_range led _ (by omega)]

theorem ledsTurnOffSingle_update_any (s : LedsState) (a v led : Nat)
    (hp : s.port_adress = some a) (hv : v < 65536) :
    LedsTurnOffSingle led { s with memory := Function.update s.memory a v } =
      some { s with
        memory :=
          Function.update s.memory a
            (if 1 ≤ led ∧ led ≤ 16 then v &&& (65535 ^^^ 2 ^ (led - 1)) else v) } := by
  by_cases h : 1 ≤ led ∧ led ≤ 16
  · rw [if_pos h, ledsTurnOffSingle_update s a v led hp hv h.1 h.2]
  · rw [if_neg h, ledsTurnOffSingle_of_not_range led _ (by omega)]

theorem onVal_lt (v led : Nat) (hv : v < 65536) :
    (if 1 ≤ led ∧ led ≤ 16 then v ||| 2 ^ (led - 1) else v) < 65536 := by
  split
  · next h => exact or_two_pow_lt v led hv h.2
  · exact hv

theorem offVal_lt (v led : Nat) (hv : v < 65536) :
    (if 1 ≤ led ∧ led ≤ 16 then v &&& (65535 ^^^ 2 ^ (led - 1)) else v) < 65536 := by
  split
  · exact and_clearMask_lt v led hv
  · exact hv

theorem or_then_clear_comm (v i j : Nat) (hv : v < 65536) (hi : i < 16) (hij : i ≠ j) :
    (v ||| 2 ^ i) &&& (65535 ^^^ 2 ^ j) = (v &&& (65535 ^^^ 2 ^ j)) ||| 2 ^ i := by
  have hm : 2 ^ i < 65536 :=
    lt_of_le_of_lt (Nat.pow_le_pow_right (by norm_num) (by omega : i ≤ 15)) (by norm_num)
  have hvi : v ||| 2 ^ i < 65536 := Nat.or_lt_two_pow (n := 16) hv hm
  apply Nat.eq_of_testBit_eq
  intro k
  rw [testBit_and_clearMask _ _ _ hvi, testBit_or_two_pow, testBit_or_two_pow,
    testBit_and_clearMask _ _ _ hv]
  by_cases h1 : i = k <;> by_cases h2 : j = k <;> simp [h1, h2]
  omega

theorem on_off_values_comm (v la lb : Nat) (hv : v < 65536) (hab : la ≠ lb) :
    (if 1 ≤ lb ∧ lb ≤ 16 then
        (if 1 ≤ la ∧ la ≤ 16 then v ||| 2 ^ (la - 1) else v) &&& (65535 ^^^ 2 ^ (lb - 1))
      else (if 1 ≤ la ∧ la ≤ 16 then v ||| 2 ^ (la - 1) else v)) =
    (if 1 ≤ la ∧ la ≤ 16 then
        (if 1 ≤ lb ∧ lb ≤ 16 then v &&& (65535 ^^^ 2 ^ (lb - 1)) else v) ||| 2 ^ (la - 1)
      else (if 1 ≤ lb ∧ lb ≤ 16 then v &&& (65535 ^^^ 2 ^ (lb - 1)) else v)) := by
  by_cases ha : 1 ≤ la ∧ la ≤ 16 <;> by_cases hb : 1 ≤ lb ∧ lb ≤ 16
  · rw [if_pos hb, if_pos ha, if_pos ha, if_pos hb]
    exact or_then_clear_comm v _ _ hv (by omega) (by omega)
  · rw [if_neg hb, if_pos ha, if_pos ha, if_neg hb]
  · rw [if_pos hb, if_neg ha, if_neg ha, if_pos hb]
  · rw [if_neg hb, if_neg ha, if_neg ha, if_neg hb]

theorem on_on_values_comm (v la lb : Nat) :
    (if 1 ≤ lb ∧ lb ≤ 16 then
        (if 1 ≤ la ∧ la ≤ 16 then v ||| 2 ^ (la - 1) else v) ||| 2 ^ (lb - 1)
      else (if 1 ≤ la ∧ la ≤ 16 then v ||| 2 ^ (la - 1) else v)) =
    (if 1 ≤ la ∧ la ≤ 16 then
        (if 1 ≤ lb ∧ lb ≤ 16 then v ||| 2 ^ (lb - 1) else v) ||| 2 ^ (la - 1)
      else (if 1 ≤ lb ∧ lb ≤ 16 then v ||| 2 ^ (lb - 1) else v)) := by
  by_cases ha : 1 ≤ la ∧ la ≤ 16 <;> by_cases hb : 1 ≤ lb ∧ lb ≤ 16
  · rw [if_pos hb, if_pos ha, if_pos ha, if_pos hb, Nat.or_assoc, Nat.or_assoc,
      Nat.or_comm (2 ^ (la - 1))]
  · rw [if_neg hb, if_pos ha, if_pos ha, if_neg hb]
  · rw [if_pos hb, if_neg ha, if_neg ha, if_pos hb]
  · rw [if_neg hb, if_neg ha, if_neg ha, if_neg hb]

theorem off_off_values_comm (v la lb : Nat) :
    (if 1 ≤ lb ∧ lb ≤ 16 then
        (if 1 ≤ la ∧ la ≤ 16 then v &&& (65535 ^^^ 2 ^ (la - 1)) else v) &&&
          (65535 ^^^ 2 ^ (lb - 1))
      else (if 1 ≤ la ∧ la ≤ 16 then v &&& (65535 ^^^ 2 ^ (la - 1)) else v)) =
    (if 1 ≤ la ∧ la ≤ 16 then
        (if 1 ≤ lb ∧ lb ≤ 16 then v &&& (65535 ^^^ 2 ^ (lb - 1)) else v) &&&
          (65535 ^^^ 2 ^ (la - 1))
      else (if 1 ≤ lb ∧ lb ≤ 16 then v &&& (65535 ^^^ 2 ^ (lb - 1)) else v)) := by
  by_cases ha : 1 ≤ la ∧ la ≤ 16 <;> by_cases hb : 1 ≤ lb ∧ lb ≤ 16
  · rw [if_pos hb, if_pos ha, if_pos ha, if_pos hb, Nat.and_assoc, Nat.and_assoc,
      Nat.and_comm (65535 ^^^ 2 ^ (la - 1))]
  · rw [if_neg hb, if_pos ha, if_pos ha, if_neg hb]
  · rw [if_pos hb, if_neg ha, if_neg ha, if_pos hb]
  · rw [if_neg hb, if_neg ha, if_neg ha, if_neg hb]

theorem on_then_off_any (s : LedsState) (a la lb : Nat)
    (hp : s.port_adress = some a) (hr : s.memory a < 65536) :
    (LedsTurnOnSingle la s >>= LedsTurnOffSingle lb) =
      some { s with
        memory :=
          Function.update s.memory a
            (if 1 ≤ lb ∧ lb ≤ 16 then
              (if 1 ≤ la ∧ la ≤ 16 then s.memory a ||| 2 ^ (la - 1) else s.memory a) &&&
                (65535 ^^^ 2 ^ (lb - 1))
            else (if 1 ≤ la ∧ la ≤ 16 then s.memory a ||| 2 ^ (la - 1) else s.memory a)) } := by
  have h1 := ledsTurnOnSingle_update_any s a (s.memory a) la hp hr
  rw [update_memory_self] at h1
  rw [h1, Option.bind_eq_bind, Option.some_bind,
    ledsTurnOffSingle_update_any s a _ lb hp (onVal_lt _ la hr)]

theorem off_then_on_any (s : LedsState) (a la lb : Nat)
    (hp : s.port_adress = some a) (hr : s.memory a < 65536) :
    (LedsTurnOffSingle lb s >>= LedsTurnOnSingle la) =
      some { s with
        memory :=
          Function.update s.memory a
            (if 1 ≤ la ∧ la ≤ 16 then
              (if 1 ≤ lb ∧ lb ≤ 16 then s.memory a &&& (65535 ^^^ 2 ^ (lb - 1))
                else s.memory a) ||| 2 ^ (la - 1)
            else (if 1 ≤ lb ∧ lb ≤ 16 then s.memory a &&& (65535 ^^^ 2 ^ (lb - 1))
              else s.memory a)) } := by
  have h1 := ledsTurnOffSingle_update_any s a (s.memory a) lb hp hr
  rw [update_memory_self] at h1
  rw [h1, Option.bind_eq_bind, Option.some_bind,
    ledsTurnOnSingle_update_any s a _ la hp (offVal_lt _ lb hr)]

theorem on_then_on_any (s : LedsState) (a la lb : Nat)
    (hp : s.port_adress = some a) (hr : s.memory a < 65536) :
    (LedsTurnOnSingle la s >>= LedsTurnOnSingle lb) =
      some { s with
        memory :=
          Function.update s.memory a
            (if 1 ≤ lb ∧ lb ≤ 16 then
              (if 1 ≤ la ∧ la ≤ 16 then s.memory a ||| 2 ^ (la - 1) else s.memory a) |||
                2 ^ (lb - 1)
            else (if 1 ≤ la ∧ la ≤ 16 then s.memory a ||| 2 ^ (la - 1) else s.memory a)) } := by
  have h1 := ledsTurnOnSingle_update_any s a (s.memory a) la hp hr
  rw [update_memory_self] at h1
  rw [h1, Option.bind_eq_bind, Option.some_bind,
    ledsTurnOnSingle_update_any s a _ lb hp (onVal_lt _ la hr)]

theorem off_then_off_any (s : LedsState) (a la lb : Nat)
    (hp : s.port_adress = some a) (hr : s.memory a < 65536) :
    (LedsTurnOffSingle la s >>= LedsTurnOffSingle lb) =
      some { s with
        memory :=
          Function.update s.memory a
            (if 1 ≤ lb ∧ lb ≤ 16 then
              (if 1 ≤ la ∧ la ≤ 16 then s.memory a &&& (65535 ^^^ 2 ^ (la - 1))
                else s.memory a) &&& (65535 ^^^ 2 ^ (lb - 1))
            else (if 1 ≤ la ∧ la ≤ 16 then s.memory a &&& (65535 ^^^ 2 ^ (la - 1))
              else s.memory a)) } := by
  have h1 := ledsTurnOffSingle_update_any s a (s.memory a) la hp hr
  rw [update_memory_self] at h1
  rw [h1, Option.bind_eq_bind, Option.some_bind,
    ledsTurnOffSingle_update_any s a _ lb hp (offVal_lt _ la hr)]

/-- C18: on a bound 16-bit register and for all arguments `la`, `lb` (8-bit or not,
valid or not): when `la ≠ lb`, `LedsTurnOnSingle la` and `LedsTurnOffSingle lb`
run in either order succeed and end in the same state; `LedsTurnOnSingle la` and
`LedsTurnOnSingle lb` commute, and so do `LedsTurnOffSingle la` and
`LedsTurnOffSingle lb`, whether or not `la = lb`. -/
theorem single_led_operations_commute (s : LedsState) (a la lb : Nat)
    (hp : s.port_adress = some a) (hr : s.memory a < 65536) :
    (la ≠ lb → ∃ t, (LedsTurnOnSingle la s >>= LedsTurnOffSingle lb) = some t ∧
      (LedsTurnOffSingle lb s >>= LedsTurnOnSingle la) = some t) ∧
    (∃ t, (LedsTurnOnSingle la s >>= LedsTurnOnSingle lb) = some t ∧
      (LedsTurnOnSingle lb s >>= LedsTurnOnSingle la) = some t) ∧
    (∃ t, (LedsTurnOffSingle la s >>= LedsTurnOffSingle lb) = some t ∧
      (LedsTurnOffSingle lb s >>= LedsTurnOffSingle la) = some t) := by
  refine ⟨fun hab => ⟨_, on_then_off_any s a la lb hp hr, ?_⟩,
    ⟨_, on_then_on_any s a la lb hp hr, ?_⟩, ⟨_, off_then_off_any s a la lb hp hr, ?_⟩⟩
  · rw [off_then_on_any s a la lb hp hr, on_off_values_comm _ la lb hr hab]
  · rw [on_then_on_any s a lb la hp hr, on_on_values_comm _ la lb]
  · rw [off_then_off_any s a lb la hp hr, off_off_values_comm _ la lb]

theorem single_led_operations_commute_witness :
    (boundState 0x00FF).port_adress = some 0 ∧ (boundState 0x00FF).memory 0 < 65536 ∧
    ((5 ≠ 7 → ∃ t, (LedsTurnOnSingle 5 (boundState 0x00FF) >>= LedsTurnOffSingle 7) = some t ∧
      (LedsTurnOffSingle 7 (boundState 0x00FF) >>= LedsTurnOnSingle 5) = some t) ∧
    (∃ t, (LedsTurnOnSingle 5 (boundState 0x00FF) >>= LedsTurnOnSingle 7) = some t ∧
      (LedsTurnOnSingle 7 (boundState 0x00FF) >>= LedsTurnOnSingle 5) = some t) ∧
    (∃ t, (LedsTurnOffSingle 5 (boundState 0x00FF) >>= LedsTurnOffSingle 7) = some t ∧
      (LedsTurnOffSingle 7 (boundState 0x00FF) >>= LedsTurnOffSingle 5) = some t)) :=
  ⟨rfl, by decide, single_led_operations_commute (boundState 0x00FF) 0 5 7 rfl (by decide)⟩

end Leds
